import Mathlib

/-!
Verification of the graph-qualys provider client: the rate-limited request
executor and the pagination / iteration helpers of `QualysAPIClient`
(src/provider/client/index.ts).  The executor loop itself lives in
src/provider/client/request.ts, which is not among the provided sources; its
behaviour is modelled from the specification (section 4.1, "Rate-Limited
Request Executor") and each such definition is marked in its doc comment.
-/

namespace GraphQualys

/-- `RateLimitConfig` from src/provider/client/types (static, set at client
construction): throttle status code, retry ceiling, reserve buffer and
cooldown in milliseconds. -/
structure RateLimitConfig where
  responseCode : Nat
  maxAttempts : Nat
  reserveLimit : Int
  cooldownPeriod : Nat
deriving Repr, DecidableEq

/-- `RateLimitState` from src/provider/client/types (mutable, shared across
all calls of one client instance). -/
structure RateLimitState where
  limit : Nat
  limitRemaining : Int
  limitWindowSeconds : Nat
  toWaitSeconds : Nat
  concurrency : Nat
  concurrencyRunning : Nat
deriving Repr, DecidableEq

/-- `STANDARD_RATE_LIMIT_STATE` (src/provider/client/index.ts lines 30-37). -/
def STANDARD_RATE_LIMIT_STATE : RateLimitState :=
  { limit := 300
    limitRemaining := 300
    limitWindowSeconds := 60 * 60
    toWaitSeconds := 0
    concurrency := 2
    concurrencyRunning := 0 }

/-- `DEFAULT_RATE_LIMIT_CONFIG` (src/provider/client/index.ts lines 39-44). -/
def DEFAULT_RATE_LIMIT_CONFIG : RateLimitConfig :=
  { responseCode := 409
    maxAttempts := 5
    reserveLimit := 30
    cooldownPeriod := 1000 }

/-- Rate-limit metadata carried by a response's headers, when present. -/
structure RateHeaders where
  limit : Nat
  limitRemaining : Int
  limitWindowSeconds : Nat
  toWaitSeconds : Nat
deriving Repr, DecidableEq

/-- An HTTP response as the executor observes it: status, status text, and
optional rate-limit headers. -/
structure Response where
  status : Nat
  statusText : String
  headers : Option RateHeaders
deriving Repr, DecidableEq

/-- A transport-level (network) failure of the underlying fetch. -/
structure TransportError where
  message : String
deriving Repr, DecidableEq

/-- Observable scheduling events of one logical call through the executor:
an advised pre-flight pause, a wait for a concurrency slot, the dispatch and
completion of attempt `n`, and a throttle cooldown sleep. -/
inductive Event where
  | waitAdvised (ms : Nat)
  | waitSlot
  | dispatch (attempt : Nat)
  | complete (attempt : Nat)
  | cooldown (ms : Nat)
deriving Repr, DecidableEq

/-- Modelled from the spec: admission check of the executor
(src/provider/client/request.ts is not among the provided sources; spec
section 4.1 step 1-2).  If `limitRemaining - reserveLimit <= 0` or a prior
response advised `toWaitSeconds > 0`, the call pauses for `toWaitSeconds`
(in milliseconds) before proceeding; if all `concurrency` slots are
occupied it additionally queues until a slot frees. -/
def admissionEvents (cfg : RateLimitConfig) (st : RateLimitState) : List Event :=
  (if st.limitRemaining - cfg.reserveLimit ≤ 0 ∨ 0 < st.toWaitSeconds then
    [Event.waitAdvised (st.toWaitSeconds * 1000)]
  else []) ++
  (if st.concurrency ≤ st.concurrencyRunning then [Event.waitSlot] else [])

/-- Modelled from the spec: post-response bookkeeping (spec section 4.1
step 5).  Quota fields are refreshed from rate-limit headers when present;
absent headers, a conservative local decrement of `limitRemaining` is
applied.  `concurrencyRunning` is tracked separately by dispatch and
completion. -/
def updateStateFromResponse (st : RateLimitState) (resp : Response) : RateLimitState :=
  match resp.headers with
  | some h =>
    { st with
      limit := h.limit
      limitRemaining := h.limitRemaining
      limitWindowSeconds := h.limitWindowSeconds
      toWaitSeconds := h.toWaitSeconds }
  | none => { st with limitRemaining := st.limitRemaining - 1 }

/-- Result of `executeAPIRequest` (request.ts): the scheduling trace, the
rate-limit state after bookkeeping, the number of the last attempt made,
and the last response (or the propagated transport failure). -/
structure APIResponse where
  events : List Event
  rateLimitState : RateLimitState
  attempts : Nat
  result : Except TransportError Response
deriving Repr

/-- Modelled from the spec: the retry loop of `executeAPIRequest`
(src/provider/client/request.ts is not among the provided sources; spec
section 4.1 steps 1-7).  One iteration: admission check, increment
`concurrencyRunning`, dispatch attempt `attempt` (the underlying call for
attempt `n` is `exec n`), decrement `concurrencyRunning` unconditionally on
completion, update the state from the response.  A response whose status
equals the throttle `responseCode` is retried after a `cooldownPeriod`
sleep while retries remain (`fuel` counts the remaining retries); any other
response, and any transport failure, ends the loop at once. -/
def executeLoop (cfg : RateLimitConfig) (exec : Nat → Except TransportError Response)
    (st : RateLimitState) (attempt : Nat) (fuel : Nat) : APIResponse :=
    let ev0 := admissionEvents cfg st
    let stIn : RateLimitState := { st with concurrencyRunning := st.concurrencyRunning + 1 }
    match exec attempt with
    | Except.error te =>
      let stOut : RateLimitState := { stIn with concurrencyRunning := stIn.concurrencyRunning - 1 }
      { events := ev0 ++ [Event.dispatch attempt, Event.complete attempt]
        rateLimitState := stOut
        attempts := attempt
        result := Except.error te }
    | Except.ok resp =>
      let stOut : RateLimitState := { stIn with concurrencyRunning := stIn.concurrencyRunning - 1 }
      let st2 := updateStateFromResponse stOut resp
      if resp.status = cfg.responseCode then
        match fuel with
        | Nat.succ f =>
          let rest := executeLoop cfg exec st2 (attempt + 1) f
          { events := ev0 ++
              [Event.dispatch attempt, Event.complete attempt,
               Event.cooldown cfg.cooldownPeriod] ++ rest.events
            rateLimitState := rest.rateLimitState
            attempts := rest.attempts
            result := rest.result }
        | 0 =>
          { events := ev0 ++ [Event.dispatch attempt, Event.complete attempt]
            rateLimitState := st2
            attempts := attempt
            result := Except.ok resp }
      else
        { events := ev0 ++ [Event.dispatch attempt, Event.complete attempt]
          rateLimitState := st2
          attempts := attempt
          result := Except.ok resp }
termination_by fuel

/-- Modelled from the spec: `executeAPIRequest` of request.ts.  Attempts are
numbered from 1; at most `maxAttempts` attempts are made for one logical
call, so `maxAttempts - 1` retries remain after the first attempt. -/
def executeAPIRequest (cfg : RateLimitConfig)
    (exec : Nat → Except TransportError Response) (st : RateLimitState) : APIResponse :=
  executeLoop cfg exec st 1 (cfg.maxAttempts - 1)

/-- The error thrown by `QualysAPIClient.executeAPIRequest`
(src/provider/client/index.ts lines 362-371): a message naming the request
URL, plus `statusText`, `status` and `code` fields assigned onto it. -/
structure RequestError where
  message : String
  statusText : String
  status : Nat
  code : Nat
deriving Repr, DecidableEq

/-- The message of the thrown request error
(src/provider/client/index.ts lines 363-365). -/
def requestErrorMessage (url statusText : String) : String :=
  "API request error for " ++ url ++ ": " ++ statusText

/-- A failure surfaced by `QualysAPIClient.executeAPIRequest`: either the
propagated transport failure or the thrown request error. -/
inductive ExecError where
  | transport (te : TransportError)
  | request (re : RequestError)
deriving Repr, DecidableEq

/-- Result of `QualysAPIClient.executeAPIRequest`: trace and state from the
executor plus the method's own outcome. -/
structure ClientResult where
  events : List Event
  rateLimitState : RateLimitState
  attempts : Nat
  result : Except ExecError Response
deriving Repr

/-- `QualysAPIClient.executeAPIRequest` (src/provider/client/index.ts lines
349-375): run the executor, store the updated rate-limit state, and throw a
request error carrying status, status text and the URL whenever the final
response status is `>= 400`. -/
def clientExecuteAPIRequest (url : String) (cfg : RateLimitConfig)
    (exec : Nat → Except TransportError Response) (st : RateLimitState) : ClientResult :=
  let api := executeAPIRequest cfg exec st
  match api.result with
  | Except.error te =>
    { events := api.events
      rateLimitState := api.rateLimitState
      attempts := api.attempts
      result := Except.error (ExecError.transport te) }
  | Except.ok resp =>
    if 400 ≤ resp.status then
      { events := api.events
        rateLimitState := api.rateLimitState
        attempts := api.attempts
        result := Except.error (ExecError.request
          { message := requestErrorMessage url resp.statusText
            statusText := resp.statusText
            status := resp.status
            code := resp.status }) }
    else
      { events := api.events
        rateLimitState := api.rateLimitState
        attempts := api.attempts
        result := Except.ok resp }

/-- Number of dispatches (attempts actually issued) in a trace. -/
def countDispatch (l : List Event) : Nat :=
  List.countP (fun e => match e with | Event.dispatch _ => true | _ => false) l

/-- Number of throttle cooldown sleeps in a trace. -/
def countCooldown (l : List Event) : Nat :=
  List.countP (fun e => match e with | Event.cooldown _ => true | _ => false) l

theorem countDispatch_admission (cfg : RateLimitConfig) (st : RateLimitState) :
    countDispatch (admissionEvents cfg st) = 0 := by
  unfold admissionEvents countDispatch
  split <;> split <;> simp

theorem countCooldown_admission (cfg : RateLimitConfig) (st : RateLimitState) :
    countCooldown (admissionEvents cfg st) = 0 := by
  unfold admissionEvents countCooldown
  split <;> split <;> simp

theorem cooldown_not_mem_admission (cfg : RateLimitConfig) (st : RateLimitState) (ms : Nat) :
    Event.cooldown ms ∉ admissionEvents cfg st := by
  unfold admissionEvents
  split <;> split <;> simp

theorem updateState_concurrencyRunning (st : RateLimitState) (resp : Response) :
    (updateStateFromResponse st resp).concurrencyRunning = st.concurrencyRunning := by
  unfold updateStateFromResponse
  cases resp.headers <;> rfl

theorem updateState_concurrency (st : RateLimitState) (resp : Response) :
    (updateStateFromResponse st resp).concurrency = st.concurrency := by
  unfold updateStateFromResponse
  cases resp.headers <;> rfl

theorem executeLoop_transport (cfg : RateLimitConfig)
    (exec : Nat → Except TransportError Response) (st : RateLimitState)
    (attempt fuel : Nat) (te : TransportError) (h : exec attempt = Except.error te) :
    executeLoop cfg exec st attempt fuel =
      { events := admissionEvents cfg st ++ [Event.dispatch attempt, Event.complete attempt]
        rateLimitState := st
        attempts := attempt
        result := Except.error te } := by
  rw [executeLoop, h]
  rfl

theorem executeLoop_no_throttle (cfg : RateLimitConfig)
    (exec : Nat → Except TransportError Response) (st : RateLimitState)
    (attempt fuel : Nat) (resp : Response) (h : exec attempt = Except.ok resp)
    (hs : ¬resp.status = cfg.responseCode) :
    executeLoop cfg exec st attempt fuel =
      { events := admissionEvents cfg st ++ [Event.dispatch attempt, Event.complete attempt]
        rateLimitState := updateStateFromResponse st resp
        attempts := attempt
        result := Except.ok resp } := by
  rw [executeLoop, h]
  simp [hs]

theorem executeLoop_throttle_last (cfg : RateLimitConfig)
    (exec : Nat → Except TransportError Response) (st : RateLimitState)
    (attempt : Nat) (resp : Response) (h : exec attempt = Except.ok resp)
    (hs : resp.status = cfg.responseCode) :
    executeLoop cfg exec st attempt 0 =
      { events := admissionEvents cfg st ++ [Event.dispatch attempt, Event.complete attempt]
        rateLimitState := updateStateFromResponse st resp
        attempts := attempt
        result := Except.ok resp } := by
  rw [executeLoop, h]
  simp [hs]

theorem executeLoop_throttle_retry (cfg : RateLimitConfig)
    (exec : Nat → Except TransportError Response) (st : RateLimitState)
    (attempt f : Nat) (resp : Response) (h : exec attempt = Except.ok resp)
    (hs : resp.status = cfg.responseCode) :
    executeLoop cfg exec st attempt (f + 1) =
      { events := admissionEvents cfg st ++
          [Event.dispatch attempt, Event.complete attempt,
           Event.cooldown cfg.cooldownPeriod] ++
          (executeLoop cfg exec (updateStateFromResponse st resp) (attempt + 1) f).events
        rateLimitState :=
          (executeLoop cfg exec (updateStateFromResponse st resp) (attempt + 1) f).rateLimitState
        attempts := (executeLoop cfg exec (updateStateFromResponse st resp) (attempt + 1) f).attempts
        result := (executeLoop cfg exec (updateStateFromResponse st resp) (attempt + 1) f).result } := by
  rw [executeLoop, h]
  simp [hs]

theorem countDispatch_append (a b : List Event) :
    countDispatch (a ++ b) = countDispatch a + countDispatch b :=
  List.countP_append _ a b

theorem countCooldown_append (a b : List Event) :
    countCooldown (a ++ b) = countCooldown a + countCooldown b :=
  List.countP_append _ a b

theorem countDispatch_pair (a : Nat) :
    countDispatch [Event.dispatch a, Event.complete a] = 1 := rfl

theorem countCooldown_pair (a : Nat) :
    countCooldown [Event.dispatch a, Event.complete a] = 0 := rfl

theorem countDispatch_triple (a ms : Nat) :
    countDispatch [Event.dispatch a, Event.complete a, Event.cooldown ms] = 1 := rfl

theorem countCooldown_triple (a ms : Nat) :
    countCooldown [Event.dispatch a, Event.complete a, Event.cooldown ms] = 1 := rfl

theorem executeLoop_concurrencyRunning (cfg : RateLimitConfig)
    (exec : Nat → Except TransportError Response) :
    ∀ (fuel : Nat) (st : RateLimitState) (attempt : Nat),
    (executeLoop cfg exec st attempt fuel).rateLimitState.concurrencyRunning
      = st.concurrencyRunning := by
  intro fuel
  induction fuel with
  | zero =>
    intro st attempt
    cases h : exec attempt with
    | error te => rw [executeLoop_transport cfg exec st attempt 0 te h]
    | ok resp =>
      by_cases hs : resp.status = cfg.responseCode
      · rw [executeLoop_throttle_last cfg exec st attempt resp h hs]
        exact updateState_concurrencyRunning st resp
      · rw [executeLoop_no_throttle cfg exec st attempt 0 resp h hs]
        exact updateState_concurrencyRunning st resp
  | succ f ih =>
    intro st attempt
    cases h : exec attempt with
    | error te => rw [executeLoop_transport cfg exec st attempt (f + 1) te h]
    | ok resp =>
      by_cases hs : resp.status = cfg.responseCode
      · rw [executeLoop_throttle_retry cfg exec st attempt f resp h hs]
        dsimp only
        rw [ih]
        exact updateState_concurrencyRunning st resp
      · rw [executeLoop_no_throttle cfg exec st attempt (f + 1) resp h hs]
        exact updateState_concurrencyRunning st resp

theorem clientExecute_rateLimitState (url : String) (cfg : RateLimitConfig)
    (exec : Nat → Except TransportError Response) (st : RateLimitState) :
    (clientExecuteAPIRequest url cfg exec st).rateLimitState
      = (executeAPIRequest cfg exec st).rateLimitState := by
  unfold clientExecuteAPIRequest
  rcases hr : (executeAPIRequest cfg exec st).result with te | resp <;> simp [hr]
  split <;> rfl

theorem clientExecute_events (url : String) (cfg : RateLimitConfig)
    (exec : Nat → Except TransportError Response) (st : RateLimitState) :
    (clientExecuteAPIRequest url cfg exec st).events
      = (executeAPIRequest cfg exec st).events := by
  unfold clientExecuteAPIRequest
  rcases hr : (executeAPIRequest cfg exec st).result with te | resp <;> simp [hr]
  split <;> rfl

theorem clientExecute_attempts (url : String) (cfg : RateLimitConfig)
    (exec : Nat → Except TransportError Response) (st : RateLimitState) :
    (clientExecuteAPIRequest url cfg exec st).attempts
      = (executeAPIRequest cfg exec st).attempts := by
  unfold clientExecuteAPIRequest
  rcases hr : (executeAPIRequest cfg exec st).result with te | resp <;> simp [hr]
  split <;> rfl

theorem clientExecute_result_error (url : String) (cfg : RateLimitConfig)
    (exec : Nat → Except TransportError Response) (st : RateLimitState) (r : Response)
    (h : (executeAPIRequest cfg exec st).result = Except.ok r) (h4 : 400 ≤ r.status) :
    (clientExecuteAPIRequest url cfg exec st).result = Except.error (ExecError.request
      { message := requestErrorMessage url r.statusText
        statusText := r.statusText
        status := r.status
        code := r.status }) := by
  unfold clientExecuteAPIRequest
  simp [h, if_pos h4]

theorem clientExecute_result_ok (url : String) (cfg : RateLimitConfig)
    (exec : Nat → Except TransportError Response) (st : RateLimitState) (r : Response)
    (h : (executeAPIRequest cfg exec st).result = Except.ok r) (h4 : r.status < 400) :
    (clientExecuteAPIRequest url cfg exec st).result = Except.ok r := by
  unfold clientExecuteAPIRequest
  simp [h, if_neg (by omega : ¬400 ≤ r.status)]

theorem clientExecute_result_transport (url : String) (cfg : RateLimitConfig)
    (exec : Nat → Except TransportError Response) (st : RateLimitState) (te : TransportError)
    (h : (executeAPIRequest cfg exec st).result = Except.error te) :
    (clientExecuteAPIRequest url cfg exec st).result
      = Except.error (ExecError.transport te) := by
  unfold clientExecuteAPIRequest
  simp [h]

theorem executeLoop_all_throttle (cfg : RateLimitConfig)
    (exec : Nat → Except TransportError Response) :
    ∀ (fuel attempt : Nat) (st : RateLimitState),
    (∀ n, attempt ≤ n → n ≤ attempt + fuel →
      ∃ r, exec n = Except.ok r ∧ r.status = cfg.responseCode) →
    countDispatch (executeLoop cfg exec st attempt fuel).events = fuel + 1 ∧
    countCooldown (executeLoop cfg exec st attempt fuel).events = fuel ∧
    (∀ ms, Event.cooldown ms ∈ (executeLoop cfg exec st attempt fuel).events →
      ms = cfg.cooldownPeriod) ∧
    (executeLoop cfg exec st attempt fuel).attempts = attempt + fuel ∧
    (executeLoop cfg exec st attempt fuel).result = exec (attempt + fuel) := by
  intro fuel
  induction fuel with
  | zero =>
    intro attempt st hall
    obtain ⟨r, hr, hs⟩ := hall attempt le_rfl (Nat.le_add_right _ _)
    rw [executeLoop_throttle_last cfg exec st attempt r hr hs]
    refine ⟨?_, ?_, ?_, rfl, by simp [hr]⟩
    · rw [countDispatch_append, countDispatch_admission, countDispatch_pair]
    · rw [countCooldown_append, countCooldown_admission, countCooldown_pair]
    · intro ms hms
      rcases List.mem_append.mp hms with hm | hm
      · exact absurd hm (cooldown_not_mem_admission cfg st ms)
      · simp at hm
  | succ f ih =>
    intro attempt st hall
    obtain ⟨r, hr, hs⟩ := hall attempt le_rfl (Nat.le_add_right _ _)
    rw [executeLoop_throttle_retry cfg exec st attempt f r hr hs]
    have hall2 : ∀ n, attempt + 1 ≤ n → n ≤ (attempt + 1) + f →
        ∃ r2, exec n = Except.ok r2 ∧ r2.status = cfg.responseCode := by
      intro n hn1 hn2
      exact hall n (by omega) (by omega)
    obtain ⟨hd, hc, hmem, hat, hres⟩ := ih (attempt + 1) (updateStateFromResponse st r) hall2
    dsimp only
    have harith : attempt + 1 + f = attempt + (f + 1) := by omega
    refine ⟨?_, ?_, ?_, by rw [hat, harith], by rw [hres, harith]⟩
    · rw [countDispatch_append, countDispatch_append, countDispatch_admission,
        countDispatch_triple, hd]
      omega
    · rw [countCooldown_append, countCooldown_append, countCooldown_admission,
        countCooldown_triple, hc]
      omega
    · intro ms hms
      rcases List.mem_append.mp hms with hm | hm
      · rcases List.mem_append.mp hm with hm2 | hm2
        · exact absurd hm2 (cooldown_not_mem_admission cfg st ms)
        · simp at hm2
          exact hm2
      · exact hmem ms hm

theorem executeLoop_events_head (cfg : RateLimitConfig)
    (exec : Nat → Except TransportError Response) (st : RateLimitState)
    (attempt fuel : Nat) :
    ∃ rest, (executeLoop cfg exec st attempt fuel).events
      = admissionEvents cfg st ++ Event.dispatch attempt :: rest := by
  cases h : exec attempt with
  | error te =>
    exact ⟨[Event.complete attempt],
      by rw [executeLoop_transport cfg exec st attempt fuel te h]⟩
  | ok resp =>
    by_cases hs : resp.status = cfg.responseCode
    · cases fuel with
      | zero =>
        exact ⟨[Event.complete attempt],
          by rw [executeLoop_throttle_last cfg exec st attempt resp h hs]⟩
      | succ f =>
        refine ⟨Event.complete attempt :: Event.cooldown cfg.cooldownPeriod ::
          (executeLoop cfg exec (updateStateFromResponse st resp) (attempt + 1) f).events, ?_⟩
        rw [executeLoop_throttle_retry cfg exec st attempt f resp h hs]
        dsimp only
        simp [List.append_assoc]
    · exact ⟨[Event.complete attempt],
        by rw [executeLoop_no_throttle cfg exec st attempt fuel resp h hs]⟩

/-- **C1.** For every API call whose response status equals the configured
throttle `responseCode` (default 409), the executor waits `cooldownPeriod`
milliseconds (default 1000) between attempts and retries, up to
`maxAttempts` (default 5) attempts for that one logical call; once
`maxAttempts` is exceeded, the last throttle response is surfaced as a
terminal API error whose status references that last response's status. -/
theorem throttle_retry_policy (url : String) (cfg : RateLimitConfig)
    (exec : Nat → Except TransportError Response) (st : RateLimitState)
    (hmax : 1 ≤ cfg.maxAttempts) (hrc : 400 ≤ cfg.responseCode)
    (hall : ∀ n, 1 ≤ n → n ≤ cfg.maxAttempts →
      ∃ r, exec n = Except.ok r ∧ r.status = cfg.responseCode) :
    DEFAULT_RATE_LIMIT_CONFIG
      = { responseCode := 409, maxAttempts := 5, reserveLimit := 30,
          cooldownPeriod := 1000 } ∧
    countDispatch (clientExecuteAPIRequest url cfg exec st).events = cfg.maxAttempts ∧
    countCooldown (clientExecuteAPIRequest url cfg exec st).events = cfg.maxAttempts - 1 ∧
    (∀ ms, Event.cooldown ms ∈ (clientExecuteAPIRequest url cfg exec st).events →
      ms = cfg.cooldownPeriod) ∧
    (clientExecuteAPIRequest url cfg exec st).attempts = cfg.maxAttempts ∧
    ∃ re r, exec cfg.maxAttempts = Except.ok r ∧
      (clientExecuteAPIRequest url cfg exec st).result
        = Except.error (ExecError.request re) ∧
      re.status = r.status ∧ re.statusText = r.statusText ∧
      re.status = cfg.responseCode := by
  have hall2 : ∀ n, 1 ≤ n → n ≤ 1 + (cfg.maxAttempts - 1) →
      ∃ r, exec n = Except.ok r ∧ r.status = cfg.responseCode := by
    intro n hn1 hn2
    exact hall n hn1 (by omega)
  obtain ⟨hd, hc, hmem, hat, hres⟩ :=
    executeLoop_all_throttle cfg exec (cfg.maxAttempts - 1) 1 st hall2
  have harith : 1 + (cfg.maxAttempts - 1) = cfg.maxAttempts := by omega
  rw [harith] at hat hres
  obtain ⟨r, hr, hsr⟩ := hall cfg.maxAttempts hmax le_rfl
  have hapi : (executeAPIRequest cfg exec st).result = Except.ok r := by
    unfold executeAPIRequest
    rw [hres, hr]
  refine ⟨rfl, ?_, ?_, ?_, ?_, ?_⟩
  · rw [clientExecute_events]
    unfold executeAPIRequest
    rw [hd]
    omega
  · rw [clientExecute_events]
    unfold executeAPIRequest
    rw [hc]
  · intro ms hms
    rw [clientExecute_events] at hms
    unfold executeAPIRequest at hms
    exact hmem ms hms
  · rw [clientExecute_attempts]
    unfold executeAPIRequest
    rw [hat]
  · refine ⟨_, r, hr,
      clientExecute_result_error url cfg exec st r hapi (by omega), rfl, rfl, hsr⟩

/-- A throttled (HTTP 409) response used by concrete executor runs. -/
def throttleResp : Response := { status := 409, statusText := "Conflict", headers := none }

/-- Witness for C1: with the default config, an executor whose every attempt
is throttled dispatches exactly `maxAttempts = 5` attempts. -/
theorem throttle_retry_policy_witness :
    (1 ≤ DEFAULT_RATE_LIMIT_CONFIG.maxAttempts ∧
      400 ≤ DEFAULT_RATE_LIMIT_CONFIG.responseCode) ∧
    countDispatch (clientExecuteAPIRequest "https://qualys.example/api"
        DEFAULT_RATE_LIMIT_CONFIG (fun _ => Except.ok throttleResp)
        STANDARD_RATE_LIMIT_STATE).events
      = DEFAULT_RATE_LIMIT_CONFIG.maxAttempts :=
  ⟨⟨by decide, by decide⟩,
    (throttle_retry_policy "https://qualys.example/api" DEFAULT_RATE_LIMIT_CONFIG
      (fun _ => Except.ok throttleResp) STANDARD_RATE_LIMIT_STATE (by decide) (by decide)
      (fun _ _ _ => ⟨throttleResp, rfl, rfl⟩)).2.1⟩

/-- **C2.** For every API call whose response status is >= 400 and is not
the configured throttle `responseCode`, the call fails immediately with no
retry attempt, and the thrown error carries the response status, the status
text, and the endpoint (request URL) inside its message. -/
theorem non_throttle_error_immediate (url : String) (cfg : RateLimitConfig)
    (exec : Nat → Except TransportError Response) (st : RateLimitState) (r : Response)
    (h1 : exec 1 = Except.ok r) (h4 : 400 ≤ r.status)
    (hnt : r.status ≠ cfg.responseCode) :
    countDispatch (clientExecuteAPIRequest url cfg exec st).events = 1 ∧
    (clientExecuteAPIRequest url cfg exec st).attempts = 1 ∧
    (clientExecuteAPIRequest url cfg exec st).result = Except.error (ExecError.request
      { message := requestErrorMessage url r.statusText
        statusText := r.statusText
        status := r.status
        code := r.status }) ∧
    ∃ s1 s2, requestErrorMessage url r.statusText = s1 ++ url ++ s2 := by
  have hloop := executeLoop_no_throttle cfg exec st 1 (cfg.maxAttempts - 1) r h1 hnt
  have hapi : (executeAPIRequest cfg exec st).result = Except.ok r := by
    unfold executeAPIRequest
    rw [hloop]
  refine ⟨?_, ?_, clientExecute_result_error url cfg exec st r hapi h4, ?_⟩
  · rw [clientExecute_events]
    unfold executeAPIRequest
    rw [hloop]
    dsimp only
    rw [countDispatch_append, countDispatch_admission, countDispatch_pair]
  · rw [clientExecute_attempts]
    unfold executeAPIRequest
    rw [hloop]
  · refine ⟨"API request error for ", ": " ++ r.statusText, ?_⟩
    unfold requestErrorMessage
    rw [String.append_assoc]

/-- A plain 500 response used by concrete executor runs. -/
def serverErrorResp : Response :=
  { status := 500, statusText := "Internal Server Error", headers := none }

/-- Witness for C2: a 500 response under the default config is surfaced after
exactly one dispatched attempt. -/
theorem non_throttle_error_immediate_witness :
    (400 ≤ serverErrorResp.status ∧
      serverErrorResp.status ≠ DEFAULT_RATE_LIMIT_CONFIG.responseCode) ∧
    countDispatch (clientExecuteAPIRequest "https://qualys.example/api"
        DEFAULT_RATE_LIMIT_CONFIG (fun _ => Except.ok serverErrorResp)
        STANDARD_RATE_LIMIT_STATE).events = 1 :=
  ⟨⟨by decide, by decide⟩,
    (non_throttle_error_immediate "https://qualys.example/api" DEFAULT_RATE_LIMIT_CONFIG
      (fun _ => Except.ok serverErrorResp) STANDARD_RATE_LIMIT_STATE serverErrorResp rfl
      (by decide) (by decide)).1⟩

/-- **C5.** For every call through the executor, `concurrencyRunning` in the
shared `RateLimitState` equals its pre-call value once the call completes,
whether the call succeeds, returns an error status, or fails at the
transport level: the in-flight slot taken at dispatch is always released. -/
theorem concurrency_slot_released (url : String) (cfg : RateLimitConfig)
    (exec : Nat → Except TransportError Response) (st : RateLimitState) :
    (clientExecuteAPIRequest url cfg exec st).rateLimitState.concurrencyRunning
      = st.concurrencyRunning := by
  rw [clientExecute_rateLimitState]
  exact executeLoop_concurrencyRunning cfg exec (cfg.maxAttempts - 1) st 1

/-- A state with a pending advised wait but plenty of budget and a free
concurrency slot. -/
def advisedWaitState : RateLimitState :=
  { limit := 300, limitRemaining := 300, limitWindowSeconds := 60 * 60,
    toWaitSeconds := 10, concurrency := 2, concurrencyRunning := 0 }

/-- The low-budget scenario state from the spec: remaining budget 5 against
a reserve of 30, both concurrency slots free. -/
def lowBudgetState : RateLimitState :=
  { limit := 300, limitRemaining := 5, limitWindowSeconds := 60 * 60,
    toWaitSeconds := 0, concurrency := 2, concurrencyRunning := 0 }

/-- **C3 counterexample.** The claim asserts that whenever
`limitRemaining - reserveLimit > 0` and `concurrencyRunning < concurrency`
hold at admission time the call dispatches without delay, yet also that a
prior response's `toWaitSeconds > 0` makes the admission check fail.  In
`advisedWaitState` both apply: the budget is fine, a slot is free, but
`toWaitSeconds = 10` forces an advised pause before dispatch. -/
theorem admission_no_delay_counterexample :
    (0 < advisedWaitState.limitRemaining - DEFAULT_RATE_LIMIT_CONFIG.reserveLimit ∧
      advisedWaitState.concurrencyRunning < advisedWaitState.concurrency) ∧
    admissionEvents DEFAULT_RATE_LIMIT_CONFIG advisedWaitState
      = [Event.waitAdvised 10000] := by
  decide

/-- **C3 (amended).** For every call through the executor: if
`limitRemaining - reserveLimit > 0`, no advised wait is pending
(`toWaitSeconds = 0`), and `concurrencyRunning < concurrency` at admission
time, the call dispatches without delay (the trace begins with the
dispatch); if the admission check fails — `limitRemaining - reserveLimit
<= 0` or a prior response set `toWaitSeconds > 0` — dispatch is delayed by
an advised pause of `toWaitSeconds` (milliseconds value `toWaitSeconds *
1000`), and if all concurrency slots are occupied the call waits for a
slot.  In particular, with `rateLimitState
{limit:300, limitRemaining:5, reserveLimit:30, concurrency:2,
concurrencyRunning:0}`, the next call must wait before dispatch. -/
theorem admission_control (url : String) (cfg : RateLimitConfig)
    (exec : Nat → Except TransportError Response) (st : RateLimitState) :
    (st.toWaitSeconds = 0 → 0 < st.limitRemaining - cfg.reserveLimit →
      st.concurrencyRunning < st.concurrency →
      admissionEvents cfg st = [] ∧
      ∃ rest, (clientExecuteAPIRequest url cfg exec st).events
        = Event.dispatch 1 :: rest) ∧
    (st.limitRemaining - cfg.reserveLimit ≤ 0 ∨ 0 < st.toWaitSeconds →
      Event.waitAdvised (st.toWaitSeconds * 1000) ∈ admissionEvents cfg st) ∧
    (st.concurrency ≤ st.concurrencyRunning →
      Event.waitSlot ∈ admissionEvents cfg st) ∧
    admissionEvents DEFAULT_RATE_LIMIT_CONFIG lowBudgetState ≠ [] := by
  refine ⟨?_, ?_, ?_, by decide⟩
  · intro hw hb hc
    have hadm : admissionEvents cfg st = [] := by
      unfold admissionEvents
      rw [if_neg (by rw [hw]; omega), if_neg (by omega)]
      rfl
    refine ⟨hadm, ?_⟩
    obtain ⟨rest, hrest⟩ := executeLoop_events_head cfg exec st 1 (cfg.maxAttempts - 1)
    refine ⟨rest, ?_⟩
    rw [clientExecute_events]
    unfold executeAPIRequest
    rw [hrest, hadm]
    rfl
  · intro hfail
    unfold admissionEvents
    rw [if_pos]
    · simp
    · rcases hfail with hf | hf
      · exact Or.inl hf
      · exact Or.inr hf
  · intro hslots
    unfold admissionEvents
    rw [if_pos hslots]
    split <;> simp

/-- Witness for C3 (amended): with the standard state the first event is the
dispatch, and in the low-budget scenario state the admission gate fires. -/
theorem admission_control_witness :
    (admissionEvents DEFAULT_RATE_LIMIT_CONFIG STANDARD_RATE_LIMIT_STATE = [] ∧
      ∃ rest, (clientExecuteAPIRequest "https://qualys.example/api"
          DEFAULT_RATE_LIMIT_CONFIG (fun _ => Except.ok serverErrorResp)
          STANDARD_RATE_LIMIT_STATE).events = Event.dispatch 1 :: rest) ∧
    Event.waitAdvised 0 ∈ admissionEvents DEFAULT_RATE_LIMIT_CONFIG lowBudgetState :=
  ⟨(admission_control "https://qualys.example/api" DEFAULT_RATE_LIMIT_CONFIG
      (fun _ => Except.ok serverErrorResp) STANDARD_RATE_LIMIT_STATE).1 rfl
      (by decide) (by decide),
    (admission_control "https://qualys.example/api" DEFAULT_RATE_LIMIT_CONFIG
      (fun _ => Except.ok serverErrorResp) lowBudgetState).2.1 (by decide)⟩

/-! Cooperative scheduler over the shared `RateLimitState` (spec sections
4.1 steps 2 and 4 and section 5): several logical calls share one state;
a call enters dispatch only when a concurrency slot is free, incrementing
`concurrencyRunning` before dispatch, and decrements it unconditionally on
completion. -/

/-- The phase of one logical call sharing the client's rate-limit state. -/
inductive Phase where
  | waiting
  | inflight
  | done
deriving Repr, DecidableEq

/-- Whether a task is currently in flight. -/
def isInflight (p : Phase) : Bool :=
  match p with
  | Phase.inflight => true
  | _ => false

/-- Number of in-flight tasks. -/
def countInflight (ts : List Phase) : Nat := List.countP isInflight ts

/-- The shared state together with the phase of every logical call routed
through the one client instance. -/
structure Sys where
  st : RateLimitState
  tasks : List Phase

/-- Modelled from the spec: one cooperative step of the executor's shared
state (request.ts is not among the provided sources; spec section 4.1 steps
2 and 4, section 5).  `enter` dispatches a waiting call when a concurrency
slot is free, incrementing `concurrencyRunning`; `complete` finishes an
in-flight call, decrementing `concurrencyRunning` unconditionally and
applying the post-response bookkeeping. -/
inductive SchedStep : Sys → Sys → Prop where
  | enter (s : Sys) (i : Nat)
      (hw : s.tasks.get? i = some Phase.waiting)
      (hc : s.st.concurrencyRunning < s.st.concurrency) :
      SchedStep s
        { st := { s.st with concurrencyRunning := s.st.concurrencyRunning + 1 }
          tasks := s.tasks.set i Phase.inflight }
  | complete (s : Sys) (i : Nat) (resp : Response)
      (hi : s.tasks.get? i = some Phase.inflight) :
      SchedStep s
        { st := updateStateFromResponse
            { s.st with concurrencyRunning := s.st.concurrencyRunning - 1 } resp
          tasks := s.tasks.set i Phase.done }

/-- The concurrency invariant of the shared state: `concurrencyRunning`
counts exactly the in-flight tasks and never exceeds `concurrency`. -/
def SysInv (s : Sys) : Prop :=
  s.st.concurrencyRunning = countInflight s.tasks ∧
  s.st.concurrencyRunning ≤ s.st.concurrency

theorem countP_set_shift {α : Type} (p : α → Bool) :
    ∀ (l : List α) (i : Nat) (a b : α), l.get? i = some a →
    List.countP p (l.set i b) + (if p a then 1 else 0)
      = List.countP p l + (if p b then 1 else 0) := by
  intro l
  induction l with
  | nil =>
    intro i a b h
    simp at h
  | cons x xs ih =>
    intro i a b h
    cases i with
    | zero =>
      simp only [List.get?] at h
      injection h with h
      subst h
      simp only [List.set, List.countP_cons]
      omega
    | succ j =>
      simp only [List.get?] at h
      simp only [List.set, List.countP_cons]
      have := ih j a b h
      omega

theorem countP_one_le_of_get? {α : Type} (p : α → Bool) (l : List α) (i : Nat) (a : α)
    (h : l.get? i = some a) (hp : p a = true) : 1 ≤ List.countP p l := by
  have hm : a ∈ l := List.get?_mem h
  have := List.countP_pos_iff.mpr ⟨a, hm, hp⟩
  omega

theorem schedStep_preserves (s s2 : Sys) (h : SchedStep s s2) (hi : SysInv s) :
    SysInv s2 := by
  obtain ⟨hcount, hbound⟩ := hi
  cases h with
  | enter i hw hc =>
    constructor
    · have := countP_set_shift isInflight s.tasks i Phase.waiting Phase.inflight hw
      simp [isInflight] at this
      unfold countInflight at hcount ⊢
      dsimp only
      omega
    · dsimp only
      omega
  | complete i resp hi2 =>
    have hpos : 1 ≤ countInflight s.tasks :=
      countP_one_le_of_get? isInflight s.tasks i Phase.inflight hi2 rfl
    constructor
    · have := countP_set_shift isInflight s.tasks i Phase.inflight Phase.done hi2
      simp [isInflight] at this
      unfold countInflight at hcount hpos ⊢
      dsimp only
      rw [updateState_concurrencyRunning]
      dsimp only
      omega
    · dsimp only
      rw [updateState_concurrencyRunning, updateState_concurrency]
      dsimp only
      omega

theorem sysInv_reachable (s0 s : Sys)
    (h0 : SysInv s0) (hr : Relation.ReflTransGen SchedStep s0 s) : SysInv s := by
  induction hr with
  | refl => exact h0
  | tail _ hstep ih => exact schedStep_preserves _ _ hstep ih

/-- **C4.** In every reachable state of the shared `RateLimitState`,
`0 <= concurrencyRunning <= concurrency` holds: the scheduler never allows
more than `concurrency` simultaneous in-flight calls against the same
shared state, and the counter never goes negative (it always equals the
number of in-flight calls). -/
theorem concurrency_never_exceeded (s0 s : Sys)
    (h0 : s0.st.concurrencyRunning = countInflight s0.tasks)
    (hb : s0.st.concurrencyRunning ≤ s0.st.concurrency)
    (hr : Relation.ReflTransGen SchedStep s0 s) :
    0 ≤ s.st.concurrencyRunning ∧
    s.st.concurrencyRunning ≤ s.st.concurrency ∧
    s.st.concurrencyRunning = countInflight s.tasks := by
  have := sysInv_reachable s0 s ⟨h0, hb⟩ hr
  exact ⟨Nat.zero_le _, this.2, this.1⟩

/-- Witness for C4: three fresh calls sharing the standard state satisfy the
invariant initially, hence in the (trivially) reachable initial state. -/
theorem concurrency_never_exceeded_witness :
    (STANDARD_RATE_LIMIT_STATE.concurrencyRunning
        = countInflight (List.replicate 3 Phase.waiting) ∧
      STANDARD_RATE_LIMIT_STATE.concurrencyRunning
        ≤ STANDARD_RATE_LIMIT_STATE.concurrency) ∧
    (0 ≤ STANDARD_RATE_LIMIT_STATE.concurrencyRunning ∧
      STANDARD_RATE_LIMIT_STATE.concurrencyRunning
        ≤ STANDARD_RATE_LIMIT_STATE.concurrency ∧
      STANDARD_RATE_LIMIT_STATE.concurrencyRunning
        = countInflight (List.replicate 3 Phase.waiting)) :=
  ⟨⟨by decide, by decide⟩,
    concurrency_never_exceeded
      { st := STANDARD_RATE_LIMIT_STATE, tasks := List.replicate 3 Phase.waiting }
      { st := STANDARD_RATE_LIMIT_STATE, tasks := List.replicate 3 Phase.waiting }
      (by decide) (by decide) Relation.ReflTransGen.refl⟩

/-! The `QualysAPIClient` endpoint methods of src/provider/client/index.ts:
web-app pagination, host details, host detections, portal info and
authentication verification. -/

/-- A value that the XML parser may return either as a single record or as
an array of records (`PossibleArray<T> = T | T[]`). -/
inductive PossibleArray (α : Type) where
  | one (a : α)
  | many (l : List α)
deriving Repr, DecidableEq

/-- `toArray` of src/provider/client/util.ts (the file is not among the
provided sources; modelled from its call sites and the claim wording):
normalizes an optional single-or-array value to an array, empty when the
value is absent. -/
def toArray {α : Type} : Option (PossibleArray α) → List α
  | none => []
  | some (PossibleArray.one a) => [a]
  | some (PossibleArray.many l) => l

/-- A web application record; only identity matters to the iteration. -/
structure WebApp where
  id : Nat
deriving Repr, DecidableEq

/-- The parsed `ServiceResponse` envelope of the WAS search endpoint. -/
structure WasServiceResponse where
  responseCode : Option String
  hasMoreRecords : Bool
  webApps : Option (PossibleArray WebApp)
deriving Repr, DecidableEq

/-- A parsed WAS search response together with its HTTP status. -/
structure WasPage where
  status : Nat
  serviceResponse : Option WasServiceResponse
deriving Repr, DecidableEq

/-- The fields of a thrown `IntegrationProviderAPIError` that the client
populates: endpoint, HTTP status, and the provider code as statusText. -/
structure APIErrorInfo where
  endpoint : String
  status : Nat
  statusText : String
deriving Repr, DecidableEq

/-- `hasMoreRecords = !!jsonFromXml.ServiceResponse?.hasMoreRecords`
(index.ts line 192): falsy when the envelope is missing. -/
def pageHasMore (p : WasPage) : Bool :=
  match p.serviceResponse with
  | none => false
  | some sr => sr.hasMoreRecords

/-- `toArray(jsonFromXml.ServiceResponse?.data?.WebApp)` (index.ts line 188). -/
def pageWebApps (p : WasPage) : List WebApp :=
  toArray (p.serviceResponse.bind (fun sr => sr.webApps))

/-- The check `responseCode && responseCode !== 'SUCCESS'` (index.ts lines
176-177): a JS string is truthy only when non-empty, so the error fires
exactly for a present, non-empty code other than SUCCESS. -/
def pageBadCode (p : WasPage) : Option String :=
  match p.serviceResponse with
  | none => none
  | some sr =>
    match sr.responseCode with
    | none => none
    | some c => if c = "" then none else if c = "SUCCESS" then none else some c

/-- The WAS search endpoint (index.ts line 138). -/
def wasEndpoint : String := "/qps/rest/3.0/search/was/webapp"

/-- The XML request body template of `iterateWebApps` (index.ts lines
142-151), with the page limit and offset interpolated. -/
def wasRequestBody (limit offset : Nat) (filterXml : String) : String :=
  "\n        <ServiceRequest>\n          <preferences>\n            "
    ++ ("<limitResults>" ++ toString limit ++ "</limitResults>")
    ++ "\n            "
    ++ ("<startFromOffset>" ++ toString offset ++ "</startFromOffset>")
    ++ "\n          </preferences>\n          "
    ++ filterXml
    ++ "\n        </ServiceRequest>"

/-- JavaScript `v || d` on an optional number: `undefined` and `0` are
falsy (index.ts lines 155-156). -/
def jsOrNat (v : Option Nat) (d : Nat) : Nat :=
  match v with
  | none => d
  | some k => if k = 0 then d else k

/-- Outcome of a pagination run. -/
inductive IterResult where
  | completed
  | reqError (e : ExecError)
  | apiError (e : APIErrorInfo)
  | fuelExhausted
deriving Repr, DecidableEq

/-- Observable behaviour of one `iterateWebApps` run: the `(limit, offset)`
pairs of the bodies POSTed in order, the records handed to the iteratee in
order, and the outcome. -/
structure IterTrace where
  requests : List (Nat × Nat)
  visited : List WebApp
  result : IterResult
deriving Repr, DecidableEq

/-- The do-while pagination loop of `iterateWebApps` (index.ts lines
158-197): POST the body for the current limit/offset, fail on a thrown
request error, throw an API error on a truthy non-SUCCESS `responseCode`,
hand every record of the page to the iteratee, and continue — advancing
the offset by the limit — exactly while the parsed `hasMoreRecords` is
truthy.  `fuel` bounds the number of iterations of the model. -/
def iterateWebAppsLoop (fetchPage : Nat → Nat → Except ExecError WasPage)
    (limit : Nat) : Nat → Nat → IterTrace
  | _, 0 => { requests := [], visited := [], result := IterResult.fuelExhausted }
  | offset, Nat.succ fuel =>
    match fetchPage limit offset with
    | Except.error e =>
      { requests := [(limit, offset)], visited := [], result := IterResult.reqError e }
    | Except.ok page =>
      match pageBadCode page with
      | some c =>
        { requests := [(limit, offset)], visited := []
          result := IterResult.apiError
            { endpoint := wasEndpoint, status := page.status, statusText := c } }
      | none =>
        if pageHasMore page then
          let rest := iterateWebAppsLoop fetchPage limit (offset + limit) fuel
          { requests := (limit, offset) :: rest.requests
            visited := pageWebApps page ++ rest.visited
            result := rest.result }
        else
          { requests := [(limit, offset)], visited := pageWebApps page
            result := IterResult.completed }

/-- `iterateWebApps` entry (index.ts lines 131-157): the limit defaults to
100 and the offset to 1 via JavaScript `||`. -/
def iterateWebApps (fetchPage : Nat → Nat → Except ExecError WasPage)
    (optLimit optOffset : Option Nat) (fuel : Nat) : IterTrace :=
  iterateWebAppsLoop fetchPage (jsOrNat optLimit 100) (jsOrNat optOffset 1) fuel

/-- A host asset record; only identity matters to the client logic. -/
structure HostAsset where
  qwebHostId : Nat
deriving Repr, DecidableEq

/-- The parsed `ServiceResponse` envelope of the host-asset search. -/
structure HostServiceResponse where
  responseCode : Option String
  hostAsset : Option HostAsset
deriving Repr, DecidableEq

/-- A parsed host-asset search response with its HTTP status. -/
structure HostPage where
  status : Nat
  serviceResponse : Option HostServiceResponse
deriving Repr, DecidableEq

/-- The host-asset search endpoint (index.ts line 236). -/
def hostEndpoint : String := "/qps/rest/2.0/search/am/hostasset"

/-- The check `responseCode && responseCode !== 'SUCCESS'` of
`fetchHostDetails` (index.ts lines 264-265), with JS truthiness. -/
def hostBadCode (p : HostPage) : Option String :=
  match p.serviceResponse with
  | none => none
  | some sr =>
    match sr.responseCode with
    | none => none
    | some c => if c = "" then none else if c = "SUCCESS" then none else some c

/-- Outcome of `fetchHostDetails`. -/
inductive FetchHostResult where
  | ok (a : Option HostAsset)
  | reqError (e : ExecError)
  | apiError (e : APIErrorInfo)
deriving Repr, DecidableEq

/-- `QualysAPIClient.fetchHostDetails` (index.ts lines 235-277) as a
function of its authenticated POST's outcome: a thrown request or transport
error propagates; a truthy non-SUCCESS `responseCode` throws an API error
carrying the endpoint, the HTTP status and the provider code as statusText;
otherwise `ServiceResponse?.data?.HostAsset` is returned. -/
def fetchHostDetails (outcome : Except ExecError HostPage) : FetchHostResult :=
  match outcome with
  | Except.error e => FetchHostResult.reqError e
  | Except.ok page =>
    match hostBadCode page with
    | some c =>
      FetchHostResult.apiError
        { endpoint := hostEndpoint, status := page.status, statusText := c }
    | none => FetchHostResult.ok (page.serviceResponse.bind (fun sr => sr.hostAsset))

theorem iterateWebAppsLoop_run (fetchPage : Nat → Nat → Except ExecError WasPage) (L : Nat) :
    ∀ (n O fuel : Nat) (pages : Nat → WasPage), n < fuel →
    (∀ i, i ≤ n → fetchPage L (O + i * L) = Except.ok (pages i)) →
    (∀ i, i ≤ n → pageBadCode (pages i) = none) →
    (∀ i, i < n → pageHasMore (pages i) = true) →
    pageHasMore (pages n) = false →
    iterateWebAppsLoop fetchPage L O fuel =
      { requests := (List.range (n + 1)).map (fun i => (L, O + i * L))
        visited := ((List.range (n + 1)).map (fun i => pageWebApps (pages i))).join
        result := IterResult.completed } := by
  intro n
  induction n with
  | zero =>
    intro O fuel pages hfuel hfetch hgood hmore hlast
    obtain ⟨f, rfl⟩ : ∃ f, fuel = f + 1 := ⟨fuel - 1, by omega⟩
    have h0 : fetchPage L O = Except.ok (pages 0) := by
      have := hfetch 0 le_rfl
      simpa using this
    simp only [iterateWebAppsLoop, h0, hgood 0 le_rfl, hlast]
    simp [List.range_succ]
  | succ n ih =>
    intro O fuel pages hfuel hfetch hgood hmore hlast
    obtain ⟨f, rfl⟩ : ∃ f, fuel = f + 1 := ⟨fuel - 1, by omega⟩
    have h0 : fetchPage L O = Except.ok (pages 0) := by
      have := hfetch 0 (by omega)
      simpa using this
    have hm0 : pageHasMore (pages 0) = true := hmore 0 (by omega)
    have hrest := ih (O + L) f (fun i => pages (i + 1)) (by omega)
      (by
        intro i hi
        have hx := hfetch (i + 1) (by omega)
        have harith : O + (i + 1) * L = O + L + i * L := by ring
        rw [harith] at hx
        exact hx)
      (by intro i hi; exact hgood (i + 1) (by omega))
      (by intro i hi; exact hmore (i + 1) (by omega))
      hlast
    simp only [iterateWebAppsLoop, h0, hgood 0 (by omega), hm0, if_true]
    rw [hrest]
    have hreq : (fun i => ((L, O + i * L) : Nat × Nat)) ∘ Nat.succ
        = fun i => (L, O + L + i * L) := by
      funext i
      simp only [Function.comp]
      have : O + (i + 1) * L = O + L + i * L := by ring
      simp [this]
    have hvis : (fun i => pageWebApps (pages i)) ∘ Nat.succ
        = fun i => pageWebApps (pages (i + 1)) := by
      funext i
      rfl
    simp only [IterTrace.mk.injEq]
    refine ⟨?_, ?_, trivial⟩
    · conv_rhs => rw [List.range_succ_eq_map]
      rw [List.map_cons, List.map_map, hreq]
      simp
    · conv_rhs => rw [List.range_succ_eq_map]
      rw [List.map_cons, List.map_map, hvis]
      simp

/-- **C6.** `iterateWebApps` paginates by POSTing XML bodies containing
`<limitResults>` set to the page limit and `<startFromOffset>` set to the
current offset, applies the iteratee to each WebApp record of the returned
`ServiceResponse` data in order, continues looping exactly while the parsed
`ServiceResponse.hasMoreRecords` is truthy, and advances the offset by the
page limit between successive pages; the offset starts at the
caller-supplied offset or 1 and the limit at the caller-supplied limit or
100. -/
theorem iterateWebApps_pagination (fetchPage : Nat → Nat → Except ExecError WasPage)
    (filterXml : String) (pages : Nat → WasPage) (L O n fuel : Nat)
    (hfuel : n < fuel)
    (hfetch : ∀ i, i ≤ n → fetchPage L (O + i * L) = Except.ok (pages i))
    (hgood : ∀ i, i ≤ n → pageBadCode (pages i) = none)
    (hmore : ∀ i, i < n → pageHasMore (pages i) = true)
    (hlast : pageHasMore (pages n) = false) :
    (∀ l o, ∃ s1 s2 s3, wasRequestBody l o filterXml
      = s1 ++ ("<limitResults>" ++ toString l ++ "</limitResults>") ++ s2
        ++ ("<startFromOffset>" ++ toString o ++ "</startFromOffset>") ++ s3) ∧
    iterateWebApps fetchPage none none fuel = iterateWebAppsLoop fetchPage 100 1 fuel ∧
    (∀ l o, l ≠ 0 → o ≠ 0 →
      iterateWebApps fetchPage (some l) (some o) fuel
        = iterateWebAppsLoop fetchPage l o fuel) ∧
    iterateWebAppsLoop fetchPage L O fuel =
      { requests := (List.range (n + 1)).map (fun i => (L, O + i * L))
        visited := ((List.range (n + 1)).map (fun i => pageWebApps (pages i))).join
        result := IterResult.completed } := by
  refine ⟨?_, rfl, ?_,
    iterateWebAppsLoop_run fetchPage L n O fuel pages hfuel hfetch hgood hmore hlast⟩
  · intro l o
    refine ⟨"\n        <ServiceRequest>\n          <preferences>\n            ",
      "\n            ",
      "\n          </preferences>\n          " ++ filterXml
        ++ "\n        </ServiceRequest>", ?_⟩
    unfold wasRequestBody
    simp only [String.append_assoc]
  · intro l o hl ho
    simp [iterateWebApps, jsOrNat, hl, ho]

/-- First page of a two-page WAS listing. -/
def wasPageA : WasPage :=
  { status := 200
    serviceResponse := some
      { responseCode := some "SUCCESS"
        hasMoreRecords := true
        webApps := some (PossibleArray.many [{ id := 1 }, { id := 2 }]) } }

/-- Second (final) page of a two-page WAS listing. -/
def wasPageB : WasPage :=
  { status := 200
    serviceResponse := some
      { responseCode := some "SUCCESS"
        hasMoreRecords := false
        webApps := some (PossibleArray.one { id := 3 }) } }

/-- A server returning `wasPageA` for the first page and `wasPageB` after. -/
def wasFetchTwo : Nat → Nat → Except ExecError WasPage :=
  fun _ o => if o ≤ 100 then Except.ok wasPageA else Except.ok wasPageB

/-- The page sequence seen by the two-page run. -/
def wasPagesTwo : Nat → WasPage := fun i => if i = 0 then wasPageA else wasPageB

/-- Witness for C6: the two-page run issues offsets 1 and 101 with limit
100 and visits all three records in order. -/
theorem iterateWebApps_pagination_witness :
    iterateWebAppsLoop wasFetchTwo 100 1 3 =
      { requests := [(100, 1), (100, 101)]
        visited := [{ id := 1 }, { id := 2 }, { id := 3 }]
        result := IterResult.completed } := by
  have h := (iterateWebApps_pagination wasFetchTwo "" wasPagesTwo 100 1 1 3 (by omega)
    (by intro i hi; interval_cases i <;> rfl)
    (by intro i hi; interval_cases i <;> rfl)
    (by intro i hi; interval_cases i <;> rfl)
    rfl).2.2.2
  rw [h]
  rfl

/-- **C8 (amended).** For every 2xx response whose parsed body contains a
`ServiceResponse.responseCode` that is present, non-empty (truthy) and not
equal to SUCCESS, both `iterateWebApps` and `fetchHostDetails` throw an
`IntegrationProviderAPIError` carrying the endpoint, the HTTP response
status and the provider responseCode as statusText, rather than returning
data. -/
theorem bad_responseCode_throws (fetchPage : Nat → Nat → Except ExecError WasPage)
    (L O fuel : Nat) (pageW : WasPage) (c : String) (pageH : HostPage) (cH : String) :
    (fetchPage L O = Except.ok pageW →
      (∃ sr, pageW.serviceResponse = some sr ∧ sr.responseCode = some c) →
      c ≠ "" → c ≠ "SUCCESS" →
      iterateWebAppsLoop fetchPage L O (fuel + 1) =
        { requests := [(L, O)]
          visited := []
          result := IterResult.apiError
            { endpoint := wasEndpoint, status := pageW.status, statusText := c } }) ∧
    ((∃ sr, pageH.serviceResponse = some sr ∧ sr.responseCode = some cH) →
      cH ≠ "" → cH ≠ "SUCCESS" →
      fetchHostDetails (Except.ok pageH) = FetchHostResult.apiError
        { endpoint := hostEndpoint, status := pageH.status, statusText := cH }) := by
  constructor
  · rintro hfetch ⟨sr, hsr, hcode⟩ hne hnsucc
    have hbad : pageBadCode pageW = some c := by
      simp only [pageBadCode, hsr, hcode]
      rw [if_neg hne, if_neg hnsucc]
    simp only [iterateWebAppsLoop, hfetch, hbad]
  · rintro ⟨sr, hsr, hcode⟩ hne hnsucc
    have hbad : hostBadCode pageH = some cH := by
      simp only [hostBadCode, hsr, hcode]
      rw [if_neg hne, if_neg hnsucc]
    simp only [fetchHostDetails, hbad]

/-- A 2xx WAS page whose `responseCode` is present but empty: JS truthiness
makes the error check pass it through. -/
def emptyCodeWasPage : WasPage :=
  { status := 200
    serviceResponse := some
      { responseCode := some ""
        hasMoreRecords := false
        webApps := some (PossibleArray.one { id := 7 }) } }

/-- A 2xx host page whose `responseCode` is present but empty. -/
def emptyCodeHostPage : HostPage :=
  { status := 200
    serviceResponse := some
      { responseCode := some ""
        hostAsset := some { qwebHostId := 9 } } }

/-- **C8 counterexample.** A present responseCode equal to the empty string
differs from SUCCESS, yet neither function throws: `iterateWebApps`
completes and returns the page's data, and `fetchHostDetails` returns the
host asset, because the source guard `responseCode && responseCode !==
'SUCCESS'` treats the empty string as falsy. -/
theorem bad_responseCode_counterexample :
    (∃ sr, emptyCodeWasPage.serviceResponse = some sr ∧ sr.responseCode = some "") ∧
    "" ≠ "SUCCESS" ∧
    iterateWebAppsLoop (fun _ _ => Except.ok emptyCodeWasPage) 100 1 5 =
      { requests := [(100, 1)]
        visited := [{ id := 7 }]
        result := IterResult.completed } ∧
    fetchHostDetails (Except.ok emptyCodeHostPage)
      = FetchHostResult.ok (some { qwebHostId := 9 }) := by
  refine ⟨⟨_, rfl, rfl⟩, by decide, rfl, rfl⟩

/-- Witness for C8 (amended): a non-empty provider code INVALID_REQUEST
makes both functions throw the API error. -/
theorem bad_responseCode_throws_witness :
    iterateWebAppsLoop (fun _ _ => Except.ok
        { status := 200
          serviceResponse := some
            { responseCode := some "INVALID_REQUEST"
              hasMoreRecords := false
              webApps := none } }) 100 1 5 =
      { requests := [(100, 1)]
        visited := []
        result := IterResult.apiError
          { endpoint := wasEndpoint, status := 200, statusText := "INVALID_REQUEST" } } ∧
    fetchHostDetails (Except.ok
        { status := 200
          serviceResponse := some
            { responseCode := some "INVALID_REQUEST", hostAsset := none } })
      = FetchHostResult.apiError
        { endpoint := hostEndpoint, status := 200, statusText := "INVALID_REQUEST" } :=
  ⟨(bad_responseCode_throws (fun _ _ => Except.ok
      { status := 200
        serviceResponse := some
          { responseCode := some "INVALID_REQUEST", hasMoreRecords := false,
            webApps := none } }) 100 1 4
      { status := 200
        serviceResponse := some
          { responseCode := some "INVALID_REQUEST", hasMoreRecords := false,
            webApps := none } } "INVALID_REQUEST"
      { status := 200
        serviceResponse := some
          { responseCode := some "INVALID_REQUEST", hostAsset := none } }
      "INVALID_REQUEST").1 rfl
      ⟨_, rfl, rfl⟩ (by decide) (by decide),
    (bad_responseCode_throws (fun _ _ => Except.ok
      { status := 200
        serviceResponse := some
          { responseCode := some "INVALID_REQUEST", hasMoreRecords := false,
            webApps := none } }) 100 1 4
      { status := 200
        serviceResponse := some
          { responseCode := some "INVALID_REQUEST", hasMoreRecords := false,
            webApps := none } } "INVALID_REQUEST"
      { status := 200
        serviceResponse := some
          { responseCode := some "INVALID_REQUEST", hostAsset := none } }
      "INVALID_REQUEST").2
      ⟨_, rfl, rfl⟩ (by decide) (by decide)⟩

/-- A detection record; only identity matters to the iteration. -/
structure Detection where
  qid : Nat
deriving Repr, DecidableEq

/-- `DETECTION_LIST` of a detection host. -/
structure HostDetectionList where
  detection : Option (PossibleArray Detection)
deriving Repr, DecidableEq

/-- One host entry of the detection response. -/
structure DetectionHost where
  id : Nat
  detectionList : Option HostDetectionList
deriving Repr, DecidableEq

/-- `toArray(host.DETECTION_LIST?.DETECTION)` (index.ts line 321): the
host's detections normalized to an array, empty when absent. -/
def hostDetections (h : DetectionHost) : List Detection :=
  toArray (h.detectionList.bind (fun dl => dl.detection))

/-- A parsed detection response:
`HOST_LIST_VM_DETECTION_OUTPUT?.RESPONSE?.HOST_LIST?.HOST` collapsed to the
optional single-or-array host list fed to `toArray` (index.ts lines
313-316). -/
structure DetectionPage where
  hostList : Option (PossibleArray DetectionHost)
deriving Repr, DecidableEq

/-- The hosts of a detection response, normalized to an array. -/
def pageHosts (p : DetectionPage) : List DetectionHost := toArray p.hostList

/-- Helper for `chunk`: the fuel bounds the recursion depth; the list
length suffices whenever the chunk size is positive. -/
def chunkAux {α : Type} (n : Nat) : Nat → List α → List (List α)
  | 0, _ => []
  | _, [] => []
  | Nat.succ fuel, a :: rest => ((a :: rest).take n) :: chunkAux n fuel ((a :: rest).drop n)

/-- `lodash.chunk` as used at index.ts line 328: consecutive chunks of at
most `n` elements in input order; chunk size 0 yields no chunks. -/
def chunk {α : Type} (n : Nat) (l : List α) : List (List α) :=
  if n = 0 then [] else chunkAux n l.length l

/-- Observable behaviour of one `iterateHostDetections` run: the ID lists
of the detection requests issued in order, and the (host, detections)
pairs handed to the iteratee in order. -/
structure HostsIterTrace where
  requests : List (List Nat)
  invocations : List (DetectionHost × List Detection)
deriving Repr, DecidableEq

/-- `QualysAPIClient.iterateHostDetections` (index.ts lines 289-331): the
host IDs are split into chunks of 500, one detection request is issued per
chunk sequentially in list order, and the iteratee runs once per host of
each response with that host's detections normalized to an array. -/
def iterateHostDetections (hostIds : List Nat)
    (respFor : List Nat → DetectionPage) : HostsIterTrace :=
  { requests := chunk 500 hostIds
    invocations := ((chunk 500 hostIds).map (fun ids =>
      (pageHosts (respFor ids)).map (fun h => (h, hostDetections h)))).join }

theorem chunkAux_flatten {α : Type} (n : Nat) (hn : 1 ≤ n) :
    ∀ (fuel : Nat) (l : List α), l.length ≤ fuel → (chunkAux n fuel l).flatten = l := by
  intro fuel
  induction fuel with
  | zero =>
    intro l hl
    have hnil : l = [] := List.eq_nil_of_length_eq_zero (by omega)
    subst hnil
    cases n <;> rfl
  | succ f ih =>
    intro l hl
    cases l with
    | nil => cases n <;> rfl
    | cons a rest =>
      have hrec := ih ((a :: rest).drop n) (by
        rw [List.length_drop]
        simp only [List.length_cons] at hl ⊢
        omega)
      cases n with
      | zero => omega
      | succ m =>
        simp only [chunkAux, List.flatten_cons]
        rw [hrec]
        exact List.take_append_drop (m + 1) (a :: rest)

theorem chunkAux_mem {α : Type} (n : Nat) (hn : 1 ≤ n) :
    ∀ (fuel : Nat) (l : List α) (c : List α),
    c ∈ chunkAux n fuel l → c.length ≤ n ∧ c ≠ [] := by
  intro fuel
  induction fuel with
  | zero =>
    intro l c hc
    cases n with
    | zero => omega
    | succ m => simp [chunkAux] at hc
  | succ f ih =>
    intro l c hc
    cases n with
    | zero => omega
    | succ m =>
      cases l with
      | nil => simp [chunkAux] at hc
      | cons a rest =>
        simp only [chunkAux, List.mem_cons] at hc
        rcases hc with hc | hc
        · subst hc
          constructor
          · rw [List.length_take]
            omega
          · have : ((a :: rest).take (m + 1)).length = min (m + 1) (rest.length + 1) := by
              rw [List.length_take]
              rfl
            intro hnil
            rw [hnil] at this
            simp at this
            omega
        · exact ih _ c hc

theorem chunk_flatten {α : Type} (n : Nat) (hn : 1 ≤ n) (l : List α) :
    (chunk n l).flatten = l := by
  unfold chunk
  rw [if_neg (by omega)]
  exact chunkAux_flatten n hn l.length l le_rfl

theorem chunk_mem {α : Type} (n : Nat) (hn : 1 ≤ n) (l c : List α)
    (hc : c ∈ chunk n l) : c.length ≤ n ∧ c ≠ [] := by
  unfold chunk at hc
  rw [if_neg (by omega)] at hc
  exact chunkAux_mem n hn l.length l c hc

/-- **C10.** For every input list of host IDs, `iterateHostDetections`
partitions the list into consecutive chunks of at most 500 IDs, issues
exactly one detection request per chunk sequentially in list order, and
invokes the iteratee once per host of each response with that host's
detections normalized to an array, empty when the host has none. -/
theorem iterateHostDetections_chunks (hostIds : List Nat)
    (respFor : List Nat → DetectionPage) :
    (iterateHostDetections hostIds respFor).requests = chunk 500 hostIds ∧
    (chunk 500 hostIds).flatten = hostIds ∧
    (∀ c ∈ chunk 500 hostIds, c.length ≤ 500 ∧ c ≠ []) ∧
    (iterateHostDetections hostIds respFor).invocations
      = ((chunk 500 hostIds).map (fun ids =>
          (pageHosts (respFor ids)).map (fun h => (h, hostDetections h)))).join ∧
    (∀ h : DetectionHost, h.detectionList = none → hostDetections h = []) := by
  refine ⟨rfl, chunk_flatten 500 (by omega) hostIds,
    fun c hc => chunk_mem 500 (by omega) hostIds c hc, rfl, ?_⟩
  intro h hnone
  unfold hostDetections
  rw [hnone]
  rfl

/-- A detection server returning an empty host list for every request. -/
def detRespEmpty : List Nat → DetectionPage := fun _ => { hostList := none }

/-- Witness for C10: a three-ID input forms a single chunk, and a host
without a `DETECTION_LIST` yields an empty detections array. -/
theorem iterateHostDetections_chunks_witness :
    (iterateHostDetections [1, 2, 3] detRespEmpty).requests = [[1, 2, 3]] ∧
    (chunk 500 [1, 2, 3]).flatten = [1, 2, 3] ∧
    hostDetections { id := 1, detectionList := none } = [] := by
  have h := iterateHostDetections_chunks [1, 2, 3] detRespEmpty
  refine ⟨?_, h.2.1, h.2.2.2.2 { id := 1, detectionList := none } rfl⟩
  rw [h.1]
  rfl

/-- The `PortalInfo` payload (src/provider/client/types/portal.ts is not
among the provided sources); only its presence matters to the client. -/
structure PortalInfo where
  version : String
deriving Repr, DecidableEq

/-- The parsed `ServiceResponse` envelope of the portal version request. -/
structure PortalServiceResponse where
  data : Option PortalInfo
deriving Repr, DecidableEq

/-- A parsed portal version response body. -/
structure PortalParse where
  serviceResponse : Option PortalServiceResponse
deriving Repr, DecidableEq

/-- The portal version endpoint (index.ts line 110). -/
def portalEndpoint : String := "/qps/rest/portal/version"

/-- `QualysAPIClient.fetchPortalInfo` (index.ts lines 109-125): run the
authenticated GET through the executor, read and parse the body, and
return `ServiceResponse?.data`; every thrown error — transport failure,
a `>= 400` status surfaced by the executor wrapper, or a body read/parse
failure — is caught and turned into `undefined`. -/
def fetchPortalInfo (cfg : RateLimitConfig)
    (exec : Nat → Except TransportError Response) (st : RateLimitState)
    (parseBody : Response → Except TransportError PortalParse) : Option PortalInfo :=
  match (clientExecuteAPIRequest portalEndpoint cfg exec st).result with
  | Except.error _ => none
  | Except.ok resp =>
    match parseBody resp with
    | Except.error _ => none
    | Except.ok p =>
      match p.serviceResponse with
      | none => none
      | some sr => sr.data

/-- **C9.** `fetchPortalInfo` never propagates an error to its caller: for
every execution in which the underlying request or response parsing fails,
it returns `undefined` (`none`), and otherwise it returns the parsed
`ServiceResponse.data` payload, which may itself be `undefined`. -/
theorem fetchPortalInfo_no_throw (cfg : RateLimitConfig)
    (exec : Nat → Except TransportError Response) (st : RateLimitState)
    (parseBody : Response → Except TransportError PortalParse) :
    (∀ e, (clientExecuteAPIRequest portalEndpoint cfg exec st).result = Except.error e →
      fetchPortalInfo cfg exec st parseBody = none) ∧
    (∀ resp pe, (clientExecuteAPIRequest portalEndpoint cfg exec st).result = Except.ok resp →
      parseBody resp = Except.error pe →
      fetchPortalInfo cfg exec st parseBody = none) ∧
    (∀ resp p, (clientExecuteAPIRequest portalEndpoint cfg exec st).result = Except.ok resp →
      parseBody resp = Except.ok p →
      fetchPortalInfo cfg exec st parseBody
        = p.serviceResponse.bind (fun sr => sr.data)) := by
  refine ⟨?_, ?_, ?_⟩
  · intro e he
    simp only [fetchPortalInfo, he]
  · intro resp pe hres hpe
    simp only [fetchPortalInfo, hres, hpe]
  · intro resp p hres hp
    simp only [fetchPortalInfo, hres, hp]
    cases p.serviceResponse <;> rfl

/-- A transport failure used by concrete executor runs. -/
def connReset : TransportError := { message := "ECONNRESET" }

/-- A successful response. -/
def okResp : Response := { status := 200, statusText := "OK", headers := none }

/-- Witness for C9: a transport failure yields `none` and a successful
parse yields the payload. -/
theorem fetchPortalInfo_no_throw_witness :
    fetchPortalInfo DEFAULT_RATE_LIMIT_CONFIG (fun _ => Except.error connReset)
      STANDARD_RATE_LIMIT_STATE (fun _ => Except.ok { serviceResponse := none }) = none ∧
    fetchPortalInfo DEFAULT_RATE_LIMIT_CONFIG (fun _ => Except.ok okResp)
      STANDARD_RATE_LIMIT_STATE
      (fun _ => Except.ok { serviceResponse := some { data := some { version := "3.14" } } })
      = some { version := "3.14" } := by
  constructor
  · have htr : (executeAPIRequest DEFAULT_RATE_LIMIT_CONFIG (fun _ => Except.error connReset)
        STANDARD_RATE_LIMIT_STATE).result = Except.error connReset := by
      unfold executeAPIRequest
      rw [executeLoop_transport DEFAULT_RATE_LIMIT_CONFIG (fun _ => Except.error connReset)
        STANDARD_RATE_LIMIT_STATE 1 (DEFAULT_RATE_LIMIT_CONFIG.maxAttempts - 1) connReset rfl]
    exact (fetchPortalInfo_no_throw DEFAULT_RATE_LIMIT_CONFIG (fun _ => Except.error connReset)
      STANDARD_RATE_LIMIT_STATE (fun _ => Except.ok { serviceResponse := none })).1
      (ExecError.transport connReset)
      (clientExecute_result_transport portalEndpoint DEFAULT_RATE_LIMIT_CONFIG
        (fun _ => Except.error connReset) STANDARD_RATE_LIMIT_STATE connReset htr)
  · have hne : ¬okResp.status = DEFAULT_RATE_LIMIT_CONFIG.responseCode := by decide
    have hlt : okResp.status < 400 := by decide
    have hapi : (executeAPIRequest DEFAULT_RATE_LIMIT_CONFIG (fun _ => Except.ok okResp)
        STANDARD_RATE_LIMIT_STATE).result = Except.ok okResp := by
      unfold executeAPIRequest
      rw [executeLoop_no_throttle DEFAULT_RATE_LIMIT_CONFIG (fun _ => Except.ok okResp)
        STANDARD_RATE_LIMIT_STATE 1 (DEFAULT_RATE_LIMIT_CONFIG.maxAttempts - 1) okResp rfl hne]
    exact (fetchPortalInfo_no_throw DEFAULT_RATE_LIMIT_CONFIG (fun _ => Except.ok okResp)
      STANDARD_RATE_LIMIT_STATE
      (fun _ => Except.ok
        { serviceResponse := some { data := some { version := "3.14" } } })).2.2
      okResp { serviceResponse := some { data := some { version := "3.14" } } }
      (clientExecute_result_ok portalEndpoint DEFAULT_RATE_LIMIT_CONFIG
        (fun _ => Except.ok okResp) STANDARD_RATE_LIMIT_STATE okResp hapi hlt) rfl

/-- The activity log endpoint used to verify credentials (index.ts line 86). -/
def activityLogEndpoint : String := "/api/2.0/fo/activity_log/"

/-- The fields of the thrown `IntegrationProviderAuthenticationError`:
endpoint plus the failed request's status and statusText (absent for a
transport failure, whose error object has no such fields). -/
structure AuthErrorInfo where
  endpoint : String
  status : Option Nat
  statusText : Option String
deriving Repr, DecidableEq

/-- `err.status` of a caught executor failure. -/
def execErrorStatus (e : ExecError) : Option Nat :=
  match e with
  | ExecError.transport _ => none
  | ExecError.request re => some re.status

/-- `err.statusText` of a caught executor failure. -/
def execErrorStatusText (e : ExecError) : Option String :=
  match e with
  | ExecError.transport _ => none
  | ExecError.request re => some re.statusText

/-- `QualysAPIClient.verifyAuthentication` (index.ts lines 85-107): one
authenticated GET through the executor; any thrown error is wrapped in an
authentication error carrying the endpoint and the failed request's
status/statusText; on success it returns without error. -/
def verifyAuthentication (cfg : RateLimitConfig)
    (exec : Nat → Except TransportError Response) (st : RateLimitState) :
    Except AuthErrorInfo Unit :=
  match (clientExecuteAPIRequest activityLogEndpoint cfg exec st).result with
  | Except.ok _ => Except.ok ()
  | Except.error e =>
    Except.error
      { endpoint := activityLogEndpoint
        status := execErrorStatus e
        statusText := execErrorStatusText e }

/-- **C7.** When credentials are rejected (an error status that is not the
throttle code), `verifyAuthentication` fails with an authentication error
that is not retried beyond the executor's normal handling (a single
dispatched attempt) and that carries the endpoint, status and statusText
of the failed request; on a successful request it returns without error. -/
theorem verifyAuthentication_spec (cfg : RateLimitConfig)
    (exec : Nat → Except TransportError Response) (st : RateLimitState) (r : Response) :
    (exec 1 = Except.ok r → 400 ≤ r.status → r.status ≠ cfg.responseCode →
      verifyAuthentication cfg exec st = Except.error
        { endpoint := activityLogEndpoint
          status := some r.status
          statusText := some r.statusText } ∧
      countDispatch (clientExecuteAPIRequest activityLogEndpoint cfg exec st).events = 1) ∧
    (exec 1 = Except.ok r → r.status < 400 → r.status ≠ cfg.responseCode →
      verifyAuthentication cfg exec st = Except.ok ()) := by
  constructor
  · intro h1 h4 hnt
    obtain ⟨hd, _, hres, _⟩ :=
      non_throttle_error_immediate activityLogEndpoint cfg exec st r h1 h4 hnt
    constructor
    · unfold verifyAuthentication
      rw [hres]
      rfl
    · exact hd
  · intro h1 h4 hnt
    have hloop := executeLoop_no_throttle cfg exec st 1 (cfg.maxAttempts - 1) r h1 hnt
    have hapi : (executeAPIRequest cfg exec st).result = Except.ok r := by
      unfold executeAPIRequest
      rw [hloop]
    have hok := clientExecute_result_ok activityLogEndpoint cfg exec st r hapi h4
    unfold verifyAuthentication
    rw [hok]

/-- A rejected-credentials response. -/
def unauthorizedResp : Response :=
  { status := 401, statusText := "Unauthorized", headers := none }

/-- Witness for C7: a 401 yields the authentication error with full
context after one dispatch; a 200 yields success. -/
theorem verifyAuthentication_spec_witness :
    verifyAuthentication DEFAULT_RATE_LIMIT_CONFIG (fun _ => Except.ok unauthorizedResp)
        STANDARD_RATE_LIMIT_STATE
      = Except.error
        { endpoint := activityLogEndpoint
          status := some 401
          statusText := some "Unauthorized" } ∧
    verifyAuthentication DEFAULT_RATE_LIMIT_CONFIG (fun _ => Except.ok okResp)
        STANDARD_RATE_LIMIT_STATE = Except.ok () :=
  ⟨((verifyAuthentication_spec DEFAULT_RATE_LIMIT_CONFIG (fun _ => Except.ok unauthorizedResp)
      STANDARD_RATE_LIMIT_STATE unauthorizedResp).1 rfl (by decide) (by decide)).1,
    (verifyAuthentication_spec DEFAULT_RATE_LIMIT_CONFIG (fun _ => Except.ok okResp)
      STANDARD_RATE_LIMIT_STATE okResp).2 rfl (by decide) (by decide)⟩

end GraphQualys
